import Mathlib

/-!
Verification of the sitemap generation / staleness-detection pipeline of this
repository (`.github/scripts/`).  Paths, URLs and XML fragments are modelled as
`List Char` / `String`; timestamps as `Int`; priorities as `ℚ`.

The two generator scripts are embedded separately, since their bodies differ:
* `Universal` — `universal_sitemap_generator.py`
* `GenScript` — `generate_sitemap.py`
* `Today`     — `update_sitemap_if_needed_today.py`
* `IfNeeded`  — `update_sitemap_if_needed.py`
-/

/-- Characters stripped by Python's `lstrip('./')`: `.` and `/`. -/
def isDotOrSlash (c : Char) : Bool := c = '.' ∨ c = '/'

/-- `s.lstrip('./')` — drop leading `.` and `/` characters. -/
def lstripDotSlash (l : List Char) : List Char := l.dropWhile isDotOrSlash

/-- `s.replace('\\', '/')` applied characterwise. -/
def replBackslash (c : Char) : Char := if c = '\\' then '/' else c

/-- Python `str.endswith(s)` on char lists. -/
def endsWithL (l s : List Char) : Bool :=
  decide (s.length ≤ l.length) && (l.drop (l.length - s.length) == s)

/-- Substring test (`needle in haystack` in Python). -/
def containsSub (hay needle : List Char) : Bool :=
  hay.tails.any (fun t => needle.isPrefixOf t)

/-- Characterwise lower-casing (`str.lower()`). -/
def toLowerL (l : List Char) : List Char := l.map Char.toLower

/-- Final path component (`os.path.basename` / `Path.name`): the part after
the last `/`. -/
def baseNameL (p : List Char) : List Char := ((p.splitOn '/').getLastD [])

/-- Index of the last `.` in a name, if any. -/
def lastDotIdx (name : List Char) : Option Nat :=
  (name.reverse.indexOf? '.').map (fun j => name.length - 1 - j)

/-- `Path.stem` semantics: the name minus its last suffix; a leading dot with
no later dot yields the whole name. -/
def stemOf (name : List Char) : List Char :=
  match lastDotIdx name with
  | some i => if 1 ≤ i then name.take i else name
  | none => name

/-- `Path.suffix` semantics: the last suffix of the final component,
including the dot; empty when there is none. -/
def suffixOf (p : List Char) : List Char :=
  let name := baseNameL p
  match lastDotIdx name with
  | some i => if 1 ≤ i then name.drop i else []
  | none => []

/-- `url_path` prefixed with exactly one `/` (empty becomes `/`), as both
scripts do before `urljoin`. -/
def ensureSlash (q : List Char) : List Char :=
  if q = [] then ['/']
  else if q.head? = some '/' then q else '/' :: q

/-- `urljoin(base_url, url_path)` for a base URL of the form
`scheme://host` with no path component (the repository always passes such a
base, already `rstrip('/')`-ed): the absolute-path reference is appended. -/
def joinUrl (base p : List Char) : List Char := base ++ p

namespace Universal

/-- The relative-path rewriting of `convert_path_to_url` in
`universal_sitemap_generator.py` (lines 234-258), before the leading slash is
ensured: `index.html` at the root becomes empty, a trailing `/index.html` is
removed together with its slash (`url_path[:-11]`), and `.md` / `.markdown`
extensions are rewritten to `.html`.  The initial `replace('\\', '/')` is
applied characterwise. -/
def pathTransform (fp : List Char) : List Char :=
  let q := fp.map replBackslash
  if q = "index.html".toList then []
  else if endsWithL q "/index.html".toList then q.take (q.length - 11)
  else if endsWithL q ".md".toList then q.take (q.length - 3) ++ ".html".toList
  else if endsWithL q ".markdown".toList then q.take (q.length - 9) ++ ".html".toList
  else q

/-- `convert_path_to_url` of `universal_sitemap_generator.py`: rewrites the
relative path and joins it to the base URL. -/
def convert_path_to_url (base fp : List Char) : List Char :=
  joinUrl base (ensureSlash (pathTransform fp))

end Universal

namespace GenScript

/-- `convert_path_to_url` of `generate_sitemap.py` (lines 83-105).  The path
is backslash-normalised and `lstrip('./')`-ed; `README.md` maps to the site
root when `readme_as_index` is set; `dir/index.html` and `dir/index.htm`
become `dir/` (`rsplit('/index.', 1)[0] + '/'`, i.e. the prefix before the
final `/index.` occurrence, which under the `endswith` guard sits exactly
11 resp. 10 characters before the end); bare `index.html` / `index.htm`
become the root; `.md` is rewritten to `.html`. -/
def pathTransform (readmeAsIndex : Bool) (fp : List Char) : List Char :=
  let q := lstripDotSlash (fp.map replBackslash)
  if q = "README.md".toList ∧ readmeAsIndex then []
  else if endsWithL q "/index.html".toList then q.take (q.length - 11) ++ ['/']
  else if endsWithL q "/index.htm".toList then q.take (q.length - 10) ++ ['/']
  else if q = "index.html".toList ∨ q = "index.htm".toList then []
  else if endsWithL q ".md".toList then q.take (q.length - 3) ++ ".html".toList
  else q

/-- `convert_path_to_url` of `generate_sitemap.py`. -/
def convert_path_to_url (base : List Char) (readmeAsIndex : Bool)
    (fp : List Char) : List Char :=
  joinUrl base (ensureSlash (pathTransform readmeAsIndex fp))

end GenScript

/-- Exact-key lookup on an association list (`dict.get`). -/
def lookupKey {β : Type} (rules : List (List Char × β)) (k : List Char) : Option β :=
  match rules with
  | [] => none
  | (k', v) :: rs => if k' = k then some v else lookupKey rs k

/-- The seven change-frequency values of the sitemap protocol. -/
def changefreqEnum : List (List Char) :=
  ["always".toList, "hourly".toList, "daily".toList, "weekly".toList,
   "monthly".toList, "yearly".toList, "never".toList]

/-- Configuration consumed by the classifier: `priority_rules` and
`changefreq_rules`, as ordered keyword → value lists (Python dicts preserve
insertion order). -/
structure ClassifierConfig where
  priorityRules : List (List Char × ℚ)
  changefreqRules : List (List Char × List Char)

/-- A configuration is valid when every configured priority lies in
[0, 1] and every configured changefreq is one of the seven protocol values. -/
def ValidConfig (cfg : ClassifierConfig) : Prop :=
  (∀ kv ∈ cfg.priorityRules, 0 ≤ kv.2 ∧ kv.2 ≤ 1) ∧
  (∀ kv ∈ cfg.changefreqRules, kv.2 ∈ changefreqEnum)

instance : DecidablePred ValidConfig := fun cfg => by
  unfold ValidConfig; infer_instance

namespace Universal

/-- The keyword loop of `get_file_priority` (lines 168-173): the first
non-`default` rule whose key occurs in the lower-cased filename stem or in the
lower-cased path wins. -/
def findPriorityRule (rules : List (List Char × ℚ)) (fname pstr : List Char) :
    Option ℚ :=
  match rules with
  | [] => none
  | (k, pr) :: rs =>
    if k = "default".toList then findPriorityRule rs fname pstr
    else if containsSub fname k || containsSub pstr k then some pr
    else findPriorityRule rs fname pstr

/-- `get_file_priority` of `universal_sitemap_generator.py` (lines 161-185):
keyword rules first, then the hard-coded special cases, then the configured
default (falling back to 0.5). -/
def get_file_priority (cfg : ClassifierConfig) (path : List Char) : ℚ :=
  let pstr := toLowerL path
  let fname := toLowerL (stemOf (baseNameL path))
  match findPriorityRule cfg.priorityRules fname pstr with
  | some pr => pr
  | none =>
    if fname = "index".toList ∨ fname = "home".toList ∨ fname = "main".toList then 1
    else if containsSub fname "index".toList then mkRat 9 10
    else if containsSub pstr "about".toList || containsSub pstr "contact".toList
        || containsSub pstr "services".toList then mkRat 4 5
    else if containsSub pstr "blog".toList || containsSub pstr "news".toList
        || containsSub pstr "posts".toList then mkRat 7 10
    else (lookupKey cfg.priorityRules "default".toList).getD (mkRat 1 2)

/-- `get_change_frequency` of `universal_sitemap_generator.py`
(lines 187-200): hard-coded keyword buckets select which configured rule is
consulted, with literal fallbacks. -/
def get_change_frequency (cfg : ClassifierConfig) (path : List Char) :
    List Char :=
  let pstr := toLowerL path
  if containsSub pstr "index".toList || containsSub pstr "home".toList then
    (lookupKey cfg.changefreqRules "index".toList).getD "weekly".toList
  else if containsSub pstr "blog".toList || containsSub pstr "news".toList
      || containsSub pstr "posts".toList then
    (lookupKey cfg.changefreqRules "blog".toList).getD "weekly".toList
  else if containsSub pstr "about".toList || containsSub pstr "contact".toList
      || containsSub pstr "terms".toList || containsSub pstr "privacy".toList then
    (lookupKey cfg.changefreqRules "static".toList).getD "monthly".toList
  else (lookupKey cfg.changefreqRules "default".toList).getD "weekly".toList

end Universal

namespace GenScript

/-- The keyword loop of `get_file_priority` in `generate_sitemap.py`
(lines 49-54): key occurs in the extensionless basename or in the lower-cased
path. -/
def findPriorityRule (rules : List (List Char × ℚ)) (nameNoExt pstr : List Char) :
    Option ℚ :=
  match rules with
  | [] => none
  | (k, pr) :: rs =>
    if k = "default".toList then findPriorityRule rs nameNoExt pstr
    else if containsSub nameNoExt k || containsSub pstr k then some pr
    else findPriorityRule rs nameNoExt pstr

/-- `get_file_priority` of `generate_sitemap.py` (lines 41-56): keyword rules,
then the configured default (0.5 fallback).  There is no index special case in
this version. -/
def get_file_priority (cfg : ClassifierConfig) (path : List Char) : ℚ :=
  let fileName := toLowerL (baseNameL path)
  let nameNoExt := stemOf fileName
  match findPriorityRule cfg.priorityRules nameNoExt (toLowerL path) with
  | some pr => pr
  | none => (lookupKey cfg.priorityRules "default".toList).getD (mkRat 1 2)

end GenScript

/-- The default `priority_rules` of `universal_sitemap_generator.py`
(`load_config`, lines 43-50). -/
def defaultPriorityRules : List (List Char × ℚ) :=
  [("index".toList, 1), ("home".toList, 1), ("main".toList, mkRat 9 10),
   ("about".toList, mkRat 4 5), ("contact".toList, mkRat 4 5), ("default".toList, mkRat 1 2)]

/-- The default `changefreq_rules` of `universal_sitemap_generator.py`
(`load_config`, lines 51-57). -/
def defaultChangefreqRules : List (List Char × List Char) :=
  [("index".toList, "daily".toList), ("blog".toList, "weekly".toList),
   ("news".toList, "daily".toList), ("static".toList, "monthly".toList),
   ("default".toList, "weekly".toList)]

/-- The default configuration of `universal_sitemap_generator.py`. -/
def defaultConfig : ClassifierConfig :=
  ⟨defaultPriorityRules, defaultChangefreqRules⟩

example : Universal.get_file_priority defaultConfig "about.html".toList = mkRat 4 5 := by decide
example : Universal.get_file_priority defaultConfig "blog/post1.md".toList = mkRat 7 10 := by decide
example : Universal.get_file_priority defaultConfig "index.html".toList = 1 := by decide
example : Universal.get_change_frequency defaultConfig "index.html".toList
    = "daily".toList := by decide
example : Universal.get_change_frequency defaultConfig "about.html".toList
    = "monthly".toList := by decide

example : Universal.convert_path_to_url "https://x.io".toList "blog/index.html".toList
    = "https://x.io/blog".toList := by decide
example : Universal.convert_path_to_url "https://x.io".toList "index.md".toList
    = "https://x.io/index.html".toList := by decide
example : Universal.convert_path_to_url "https://x.io".toList "index.html".toList
    = "https://x.io/".toList := by decide
example : GenScript.convert_path_to_url "https://x.io".toList true "blog/index.html".toList
    = "https://x.io/blog/".toList := by decide
example : GenScript.convert_path_to_url "https://x.io".toList true "docs/index.htm".toList
    = "https://x.io/docs/".toList := by decide
example : GenScript.convert_path_to_url "https://x.io".toList true "README.md".toList
    = "https://x.io/".toList := by decide
example : GenScript.convert_path_to_url "https://x.io".toList true "blog/post1.md".toList
    = "https://x.io/blog/post1.html".toList := by decide

namespace Today

/-- One content file as seen by `update_sitemap_if_needed_today.py`: its
relative path, its git last-commit time (`none` when git history yields
nothing) and its filesystem mtime (`none` when `os.path.getmtime` raises
`OSError`). -/
structure ContentFile where
  path : List Char
  gitTime : Option Int
  fsTime : Option Int
deriving DecidableEq

/-- The effective timestamp of a content file: git time preferred, filesystem
mtime as fallback; `none` means the file is skipped (`except OSError:
continue`). -/
def fileTime (f : ContentFile) : Option Int :=
  match f.gitTime with
  | some t => some t
  | none => f.fsTime

/-- The world state `should_regenerate_sitemap` observes: the `force` flag,
whether `sitemap.xml` exists, the sitemap's git and filesystem timestamps, and
the content files found by `find_content_files`. -/
structure StalenessInput where
  force : Bool
  sitemapExists : Bool
  sitemapGitTime : Option Int
  sitemapFsTime : Option Int
  contentFiles : List ContentFile
deriving DecidableEq

/-- The sitemap timestamp the script compares against: git time preferred,
else filesystem mtime; `none` when neither is available (the `OSError`
branch). -/
def effectiveSitemapTime (inp : StalenessInput) : Option Int :=
  match inp.sitemapGitTime with
  | some t => some t
  | none => inp.sitemapFsTime

/-- The newer-file scan (lines 84-94): a file counts when its effective
timestamp is strictly greater than the sitemap's. -/
def anyNewer (files : List ContentFile) (m : Int) : Bool :=
  files.any (fun f =>
    match fileTime f with
    | some t => decide (m < t)
    | none => false)

/-- `should_regenerate_sitemap` of `update_sitemap_if_needed_today.py`
(lines 57-106): regenerate on `--force`, on a missing sitemap, when no
timestamp for the sitemap can be determined, or when some content file is
strictly newer than the sitemap. -/
def should_regenerate_sitemap (inp : StalenessInput) : Bool :=
  if inp.force then true
  else if !inp.sitemapExists then true
  else
    match effectiveSitemapTime inp with
    | none => true
    | some m => anyNewer inp.contentFiles m

end Today

/-- Set-inequality of two URL lists (Python compares `set` objects): some URL
belongs to one list and not the other. -/
def urlSetDiffersB (a b : List (List Char)) : Bool :=
  a.any (fun u => !(b.contains u)) || b.any (fun u => !(a.contains u))

namespace IfNeeded

/-- The staleness decision of `update_sitemap_if_needed.py` (lines 92-116):
if the existing sitemap cannot be parsed, or no `<lastmod>` equals today's
date, the sitemap is regenerated; otherwise a fresh crawl is compared with the
URL set already present, and any set difference triggers the update.
`parseOk` abstracts whether `ET.parse` succeeded, `lastmods` the `<lastmod>`
texts, `existing` the `<loc>` set read from the file and `newUrls` the
freshly-crawled set. -/
def sitemapNeedsUpdate (parseOk : Bool) (lastmods : List (List Char))
    (today : List Char) (existing newUrls : List (List Char)) : Bool :=
  if !parseOk then true
  else if lastmods.isEmpty || lastmods.all (fun t => t != today) then true
  else urlSetDiffersB newUrls existing

end IfNeeded

/-- The would-be URL list for a content-file set, as the generator invoked
after a positive staleness check (`generate_sitemap.py`) would produce it. -/
def wouldBeUrls (base : List Char) (files : List Today.ContentFile) :
    List (List Char) :=
  files.map (fun f => GenScript.convert_path_to_url base true f.path)

namespace Universal

/-- Pattern matchers are abstracted as Boolean predicates on the path string
(`re.match(pattern, file_str, re.IGNORECASE)` for the configured regexes). -/
structure ScanConfig where
  excludeMatchers : List (List Char → Bool)
  includeMatchers : List (List Char → Bool)
  fileExtensions : List (List Char)

/-- `should_include_file` of `universal_sitemap_generator.py`
(lines 109-126): exclude patterns are tested first and win; otherwise, when
include patterns are configured the file must match one; otherwise the
lower-cased suffix must be among the lower-cased allowed extensions. -/
def should_include_file (cfg : ScanConfig) (p : List Char) : Bool :=
  if cfg.excludeMatchers.any (fun m => m p) then false
  else if !cfg.includeMatchers.isEmpty then cfg.includeMatchers.any (fun m => m p)
  else (cfg.fileExtensions.map toLowerL).contains (toLowerL (suffixOf p))

/-- The file-processing loop of `generate_sitemap_data` (lines 277-289): each
file's URL is added only when not already in `processed_urls`, so duplicate
URLs are dropped. -/
def dedupUrls (base : List Char) (files : List (List Char))
    (seen : List (List Char)) : List (List Char) :=
  match files with
  | [] => []
  | f :: fs =>
    let u := convert_path_to_url base f
    if u ∈ seen then dedupUrls base fs seen
    else u :: dedupUrls base fs (u :: seen)

/-- The `loc` sequence emitted by `generate_sitemap_data` for a scanned file
list (html-link entries aside, which pass through the same
`processed_urls` guard). -/
def generatedLocs (base : List Char) (files : List (List Char)) :
    List (List Char) :=
  dedupUrls base files []

end Universal

namespace GenScript

/-- The `loc` sequence produced by `scan_directory` of `generate_sitemap.py`
(lines 107-153): one entry per scanned file, with no duplicate check. -/
def scannedLocs (base : List Char) (files : List (List Char)) :
    List (List Char) :=
  files.map (fun f => convert_path_to_url base true f)

end GenScript

/-- One `<url>` record of the sitemap, as both generator scripts build it
(`loc`, `lastmod`, `changefreq` strings and a rational `priority`). -/
structure SitemapEntry where
  loc : String
  lastmod : String
  changefreq : String
  priority : ℚ
deriving DecidableEq

namespace Emitter

/-- The sort key ordering used identically by `generate_sitemap_data`
(universal generator, line 306) and `generate_xml` (`generate_sitemap.py`,
line 162): `key=lambda x: (-x['priority'], x['loc'])`, i.e. priority
descending, then `loc` ascending. -/
def entryLE (a b : SitemapEntry) : Prop :=
  b.priority < a.priority ∨ (a.priority = b.priority ∧ a.loc.data ≤ b.loc.data)

/-- Strict version of the sort order: priority strictly higher, or equal
priority and strictly smaller `loc`. -/
def entryLT (a b : SitemapEntry) : Prop :=
  b.priority < a.priority ∨ (a.priority = b.priority ∧ a.loc.data < b.loc.data)

instance : DecidableRel entryLE := fun a b => by unfold entryLE; infer_instance

instance : DecidableRel entryLT := fun a b => by unfold entryLT; infer_instance

instance : IsTotal SitemapEntry entryLE where
  total a b := by
    unfold entryLE
    rcases lt_trichotomy a.priority b.priority with h | h | h
    · exact Or.inr (Or.inl h)
    · rcases le_total a.loc.data b.loc.data with hl | hl
      · exact Or.inl (Or.inr ⟨h, hl⟩)
      · exact Or.inr (Or.inr ⟨h.symm, hl⟩)
    · exact Or.inl (Or.inl h)

instance : IsTrans SitemapEntry entryLE where
  trans a b c hab hbc := by
    unfold entryLE at *
    rcases hab with h1 | ⟨e1, l1⟩
    · rcases hbc with h2 | ⟨e2, _⟩
      · exact Or.inl (h2.trans h1)
      · exact Or.inl (e2 ▸ h1)
    · rcases hbc with h2 | ⟨e2, l2⟩
      · exact Or.inl (e1 ▸ h2)
      · exact Or.inr ⟨e1.trans e2, l1.trans l2⟩

instance : IsAntisymm SitemapEntry entryLT where
  antisymm a b hab hba := by
    unfold entryLT at *
    rcases hab with h1 | ⟨e1, l1⟩ <;> rcases hba with h2 | ⟨e2, l2⟩
    · exact absurd h1 (lt_asymm h2)
    · exact absurd h1 (e2 ▸ lt_irrefl _)
    · exact absurd h2 (e1 ▸ lt_irrefl _)
    · exact absurd l1 (lt_asymm l2)

/-- The stable sort applied before emission (`list.sort` with the
`(-priority, loc)` key, modelled by insertion sort, which is likewise
stable). -/
def sortEntries (l : List SitemapEntry) : List SitemapEntry :=
  List.insertionSort entryLE l

/-- `round(p * 10)` computed on the numerator and denominator:
`⌊(20·num + den) / (2·den)⌋` (ties at exact midpoints are immaterial to the
claims). -/
def roundTenths (p : ℚ) : Int := (20 * p.num + (p.den : Int)).fdiv (2 * (p.den : Int))

/-- `f"{priority:.1f}"`: the priority rounded to tenths and printed with one
decimal digit. -/
def fmtPriority (p : ℚ) : String :=
  let n : Int := roundTenths p
  let s := (Nat.toDigits 10 (n.natAbs / 10)) ++ ['.'] ++ (Nat.toDigits 10 (n.natAbs % 10))
  String.mk (if n < 0 then '-' :: s else s)

/-- The serialized `<url>` element for one entry, as `create_sitemap_xml`
(universal generator, lines 320-333) and `generate_xml`
(`generate_sitemap.py`, lines 164-184) produce it: `loc`, `lastmod`,
`changefreq` and the one-decimal priority, in that fixed order.  (The
surrounding pretty-printing is a fixed function of this element sequence and
is elided.) -/
def renderEntry (e : SitemapEntry) : String :=
  "<url><loc>" ++ e.loc ++ "</loc><lastmod>" ++ e.lastmod ++
  "</lastmod><changefreq>" ++ e.changefreq ++ "</changefreq><priority>" ++
  fmtPriority e.priority ++ "</priority></url>"

/-- The `<url>` elements written by `create_sitemap_xml`: one element per
entry, in the given order — the entry list is never truncated. -/
def xmlUrlElements (entries : List SitemapEntry) : List String :=
  entries.map renderEntry

/-- The full emitted document for an input entry list: sort, then serialize.
Byte-identical output corresponds to equality of this string. -/
def emit (entries : List SitemapEntry) : String :=
  "<?xml version=\"1.0\" encoding=\"UTF-8\"?><urlset xmlns=\"http://www.sitemaps.org/schemas/sitemap/0.9\">"
  ++ String.join (xmlUrlElements (sortEntries entries)) ++ "</urlset>"

end Emitter

namespace Universal

/-- `validate_sitemap` of `universal_sitemap_generator.py` (lines 351-375),
on the URL count of the already-written file: validation succeeds and returns
the warning list — an explicit warning when the count exceeds the 50,000-URL
protocol limit, another when the sitemap is empty. -/
def validate_sitemap (urlCount : Nat) : Bool × List String :=
  (true,
    (if 50000 < urlCount then
      ["Sitemap has more than 50,000 URLs (consider splitting)"] else [])
    ++ (if urlCount = 0 then ["Sitemap contains no URLs"] else []))

end Universal

example : Emitter.fmtPriority (mkRat 1 2) = "0.5" := by decide
example : Emitter.fmtPriority 1 = "1.0" := by decide

/-! ## Helper lemmas -/

theorem mapIdOn {f : Char → Char} : ∀ (l : List Char), (∀ c ∈ l, f c = c) → l.map f = l
  | [], _ => rfl
  | c :: t, h => by
    simp only [List.map_cons]
    rw [h c (List.mem_cons_self c t), mapIdOn t (fun x hx => h x (List.mem_cons_of_mem c hx))]

theorem findPriorityRule_mem {rules : List (List Char × ℚ)} {f p : List Char} {q : ℚ}
    (h : Universal.findPriorityRule rules f p = some q) : ∃ k, (k, q) ∈ rules := by
  induction rules with
  | nil => simp [Universal.findPriorityRule] at h
  | cons kv rs ih =>
    obtain ⟨k, pr⟩ := kv
    unfold Universal.findPriorityRule at h
    split at h
    · obtain ⟨k', hk'⟩ := ih h
      exact ⟨k', List.mem_cons_of_mem _ hk'⟩
    · split at h
      · cases h
        exact ⟨k, List.mem_cons_self _ _⟩
      · obtain ⟨k', hk'⟩ := ih h
        exact ⟨k', List.mem_cons_of_mem _ hk'⟩

theorem lookupKey_mem {β : Type} {rules : List (List Char × β)} {k : List Char} {v : β}
    (h : lookupKey rules k = some v) : (k, v) ∈ rules := by
  induction rules with
  | nil => simp [lookupKey] at h
  | cons kv rs ih =>
    obtain ⟨k', v'⟩ := kv
    unfold lookupKey at h
    split at h
    · cases h
      rename_i heq
      exact heq ▸ List.mem_cons_self _ _
    · exact List.mem_cons_of_mem _ (ih h)

/-! ## C8 -/

/-- C8: `should_regenerate_sitemap` returns true when the sitemap file is
absent, and also when no timestamp (neither git nor filesystem) can be
determined for an existing sitemap; both cases yield a regeneration decision
rather than an error. -/
theorem regenerate_on_missing_or_unknown_timestamp :
    (∀ inp : Today.StalenessInput, inp.sitemapExists = false →
      Today.should_regenerate_sitemap inp = true)
    ∧ (∀ inp : Today.StalenessInput, Today.effectiveSitemapTime inp = none →
      Today.should_regenerate_sitemap inp = true) := by
  constructor
  · intro inp h
    unfold Today.should_regenerate_sitemap
    rw [h]
    split <;> simp
  · intro inp h
    unfold Today.should_regenerate_sitemap
    rw [h]
    split <;> simp

/-- Witness for C8 at concrete inputs: a missing sitemap, and an existing
sitemap with neither a git nor a filesystem timestamp. -/
theorem regenerate_on_missing_or_unknown_timestamp_witness :
    Today.should_regenerate_sitemap ⟨false, false, some 5, some 5, []⟩ = true
    ∧ Today.should_regenerate_sitemap ⟨false, true, none, none, []⟩ = true :=
  ⟨regenerate_on_missing_or_unknown_timestamp.1 _ rfl,
   regenerate_on_missing_or_unknown_timestamp.2 _ rfl⟩

/-! ## C10 -/

/-- C10: exclusion takes precedence in `should_include_file` — a path matched
by any configured exclude pattern is rejected, whatever the include patterns
or allowed extensions say. -/
theorem exclude_wins_over_include (cfg : Universal.ScanConfig) (p : List Char)
    (m : List Char → Bool) (hm : m ∈ cfg.excludeMatchers) (hp : m p = true) :
    Universal.should_include_file cfg p = false := by
  unfold Universal.should_include_file
  have h : cfg.excludeMatchers.any (fun f => f p) = true :=
    List.any_eq_true.2 ⟨m, hm, hp⟩
  simp [h]

/-- Witness for C10: a config whose include patterns and extensions would
accept the path, but an exclude pattern matches it. -/
theorem exclude_wins_over_include_witness :
    Universal.should_include_file
      ⟨[fun q => q == "x.html".toList], [fun _ => true], [".html".toList]⟩
      "x.html".toList = false :=
  exclude_wins_over_include _ _ _ (List.Mem.head _) (by decide)

/-! ## C9 -/

/-- C9: when the entry count exceeds 50,000, the pipeline still writes every
entry (`create_sitemap_xml` never truncates) and `validate_sitemap` raises the
explicit oversize warning on the written count. -/
theorem oversize_warns_and_writes_all (entries : List SitemapEntry)
    (h : 50000 < entries.length) :
    (Emitter.xmlUrlElements entries).length = entries.length
    ∧ "Sitemap has more than 50,000 URLs (consider splitting)"
      ∈ (Universal.validate_sitemap (Emitter.xmlUrlElements entries).length).2 := by
  have hlen : (Emitter.xmlUrlElements entries).length = entries.length := by
    simp [Emitter.xmlUrlElements]
  refine ⟨hlen, ?_⟩
  rw [hlen]
  unfold Universal.validate_sitemap
  simp only [if_pos h]
  exact List.mem_append_left _ (List.Mem.head _)

/-- Witness for C9 at a concrete 50,001-entry input. -/
theorem oversize_warns_and_writes_all_witness :
    (Emitter.xmlUrlElements (List.replicate 50001 (⟨"u", "d", "weekly", 1⟩ : SitemapEntry))).length
      = (List.replicate 50001 (⟨"u", "d", "weekly", 1⟩ : SitemapEntry)).length
    ∧ "Sitemap has more than 50,000 URLs (consider splitting)"
      ∈ (Universal.validate_sitemap (Emitter.xmlUrlElements
          (List.replicate 50001 (⟨"u", "d", "weekly", 1⟩ : SitemapEntry))).length).2 :=
  oversize_warns_and_writes_all _ (by rw [List.length_replicate]; omega)

/-! ## C2 -/

/-- C2: for every valid configuration and every path, `get_file_priority`
returns a priority within [0, 1] and `get_change_frequency` returns one of
the seven sitemap-protocol changefreq values. -/
theorem classifier_range (cfg : ClassifierConfig) (path : List Char)
    (h : ValidConfig cfg) :
    (0 ≤ Universal.get_file_priority cfg path
      ∧ Universal.get_file_priority cfg path ≤ 1)
    ∧ Universal.get_change_frequency cfg path ∈ changefreqEnum := by
  obtain ⟨hpr, hcf⟩ := h
  constructor
  · simp only [Universal.get_file_priority]
    split
    · rename_i pr hfind
      exact hpr _ (findPriorityRule_mem hfind).choose_spec
    · split
      · constructor <;> norm_num
      · split
        · constructor <;> decide
        · split
          · constructor <;> decide
          · split
            · constructor <;> decide
            · rcases hd : lookupKey cfg.priorityRules "default".toList with _ | v
              · simp only [hd, Option.getD_none]
                constructor <;> decide
              · simpa only [hd, Option.getD_some] using hpr _ (lookupKey_mem hd)
  · simp only [Universal.get_change_frequency]
    split
    · rcases hd : lookupKey cfg.changefreqRules "index".toList with _ | v
      · simp only [hd, Option.getD_none]; decide
      · simpa only [hd, Option.getD_some] using hcf _ (lookupKey_mem hd)
    · split
      · rcases hd : lookupKey cfg.changefreqRules "blog".toList with _ | v
        · simp only [hd, Option.getD_none]; decide
        · simpa only [hd, Option.getD_some] using hcf _ (lookupKey_mem hd)
      · split
        · rcases hd : lookupKey cfg.changefreqRules "static".toList with _ | v
          · simp only [hd, Option.getD_none]; decide
          · simpa only [hd, Option.getD_some] using hcf _ (lookupKey_mem hd)
        · rcases hd : lookupKey cfg.changefreqRules "default".toList with _ | v
          · simp only [hd, Option.getD_none]; decide
          · simpa only [hd, Option.getD_some] using hcf _ (lookupKey_mem hd)

/-- Witness for C2: the default configuration of the universal generator and
a concrete path. -/
theorem classifier_range_witness :
    (0 ≤ Universal.get_file_priority defaultConfig "blog/post1.md".toList
      ∧ Universal.get_file_priority defaultConfig "blog/post1.md".toList ≤ 1)
    ∧ Universal.get_change_frequency defaultConfig "blog/post1.md".toList ∈ changefreqEnum :=
  classifier_range defaultConfig _ (by decide)

/-! ## C5 -/

/-- A valid configuration whose `index` keyword rule assigns priority 0.3. -/
def indexRuleConfig : ClassifierConfig :=
  ⟨[("index".toList, mkRat 3 10)], [("default".toList, "weekly".toList)]⟩

/-- C5 counterexample: with a valid configuration whose keyword rule `index`
carries priority 0.3, the root-level file `index.html` is classified with
priority 0.3, not 1.0 — the keyword loop of `get_file_priority` runs before
the hard-coded index special case, so it is not an absolute override. -/
theorem index_priority_counterexample :
    ValidConfig indexRuleConfig
    ∧ Universal.get_file_priority indexRuleConfig "index.html".toList = mkRat 3 10
    ∧ Universal.get_file_priority indexRuleConfig "index.html".toList ≠ 1 := by
  refine ⟨by decide, by decide, by decide⟩

/-- C5 amended: a file whose stem is `index` receives priority 1.0 only when
no keyword priority rule matches it — the hard-coded special case is a
fallback after the configured rules, not an override (and it applies at any
directory level, not only the project root). -/
theorem index_priority_when_no_rule (cfg : ClassifierConfig) (path : List Char)
    (hnone : Universal.findPriorityRule cfg.priorityRules
      (toLowerL (stemOf (baseNameL path))) (toLowerL path) = none)
    (hidx : toLowerL (stemOf (baseNameL path)) = "index".toList) :
    Universal.get_file_priority cfg path = 1 := by
  simp only [Universal.get_file_priority, hidx]
  rw [hidx] at hnone
  simp only [show ("index".toList : List Char) = ['i', 'n', 'd', 'e', 'x'] from rfl] at hnone
  split
  · rename_i pr hfind
    simp only [show ("index".toList : List Char) = ['i', 'n', 'd', 'e', 'x'] from rfl] at hfind
    rw [hfind] at hnone
    cases hnone
  · rfl

/-- Witness for the amended C5: an empty rule set and the root `index.html`. -/
theorem index_priority_when_no_rule_witness :
    Universal.get_file_priority ⟨[], []⟩ "index.html".toList = 1 :=
  index_priority_when_no_rule ⟨[], []⟩ _ (by decide) (by decide)

/-! ## C4 -/

theorem dedupUrls_not_mem_seen (base : List Char) :
    ∀ (fs : List (List Char)) (seen : List (List Char)) (u : List Char),
      u ∈ Universal.dedupUrls base fs seen → u ∉ seen := by
  intro fs
  induction fs with
  | nil => intro seen u hu; simp [Universal.dedupUrls] at hu
  | cons f rest ih =>
    intro seen u hu
    unfold Universal.dedupUrls at hu
    by_cases hmem : Universal.convert_path_to_url base f ∈ seen
    · rw [if_pos hmem] at hu
      exact ih seen u hu
    · rw [if_neg hmem] at hu
      rcases List.mem_cons.1 hu with heq | htail
      · exact heq ▸ hmem
      · intro hseen
        exact ih _ u htail (List.mem_cons_of_mem _ hseen)

theorem dedupUrls_nodup (base : List Char) :
    ∀ (fs : List (List Char)) (seen : List (List Char)),
      (Universal.dedupUrls base fs seen).Nodup := by
  intro fs
  induction fs with
  | nil => intro seen; simp [Universal.dedupUrls]
  | cons f rest ih =>
    intro seen
    unfold Universal.dedupUrls
    by_cases hmem : Universal.convert_path_to_url base f ∈ seen
    · rw [if_pos hmem]; exact ih seen
    · rw [if_neg hmem]
      refine List.nodup_cons.2 ⟨?_, ih _⟩
      intro hin
      exact dedupUrls_not_mem_seen base rest _ _ hin (List.Mem.head _)

/-- C4 amended: in `generate_sitemap_data` of the universal generator the
`processed_urls` guard makes the emitted `loc` sequence duplicate-free for
every scanned file list, even when two distinct files map to the same URL;
`scan_directory` of `generate_sitemap.py`, however, has no such guard (see
the counterexample). -/
theorem generated_locs_unique (base : List Char) (files : List (List Char)) :
    (Universal.generatedLocs base files).Nodup :=
  dedupUrls_nodup base files []

/-- C4 counterexample: `scan_directory` of `generate_sitemap.py` emits two
entries with the same `loc` when `foo.md` and `foo.html` both exist — the
claim is false for that cited scanner. -/
theorem scanned_locs_duplicate_counterexample :
    ¬ (GenScript.scannedLocs "https://x.io".toList
        ["foo.md".toList, "foo.html".toList]).Nodup := by decide

/-! ## C1 -/

/-- C1 amended: the timestamp half of the staleness check lives in
`should_regenerate_sitemap` (`update_sitemap_if_needed_today.py`) — any
content file strictly newer than the sitemap forces regeneration — while the
URL-set half lives only in `update_sitemap_if_needed.py`, where a difference
between the freshly-generated URL set and the set present in the sitemap
always forces the update.  No single checker applies both conditions (see the
counterexample). -/
theorem staleness_conditions_split :
    (∀ (inp : Today.StalenessInput) (f : Today.ContentFile) (m t : Int),
      f ∈ inp.contentFiles → Today.effectiveSitemapTime inp = some m →
      Today.fileTime f = some t → m < t →
      Today.should_regenerate_sitemap inp = true)
    ∧ (∀ (parseOk : Bool) (lastmods : List (List Char)) (today : List Char)
        (existing newUrls : List (List Char)),
      urlSetDiffersB newUrls existing = true →
      IfNeeded.sitemapNeedsUpdate parseOk lastmods today existing newUrls = true) := by
  constructor
  · intro inp f m t hmem heff hft hmt
    have hnew : Today.anyNewer inp.contentFiles m = true := by
      refine List.any_eq_true.2 ⟨f, hmem, ?_⟩
      rw [hft]
      exact decide_eq_true hmt
    unfold Today.should_regenerate_sitemap
    rw [heff]
    split
    · rfl
    · split
      · rfl
      · exact hnew
  · intro parseOk lastmods today existing newUrls h
    unfold IfNeeded.sitemapNeedsUpdate
    split
    · rfl
    · split
      · rfl
      · exact h

/-- Witness for the amended C1: a content file newer than the sitemap on the
timestamp side, and a one-URL difference on the set side. -/
theorem staleness_conditions_split_witness :
    Today.should_regenerate_sitemap
      ⟨false, true, some 100, none, [⟨"about.html".toList, some 150, none⟩]⟩ = true
    ∧ IfNeeded.sitemapNeedsUpdate true ["2026-01-01".toList] "2026-01-01".toList
        ["https://x.io/a".toList] ["https://x.io/b".toList] = true :=
  ⟨staleness_conditions_split.1 _ ⟨"about.html".toList, some 150, none⟩ 100 150
      (List.Mem.head _) rfl rfl (by omega),
   staleness_conditions_split.2 _ _ _ _ _ (by decide)⟩

/-- C1 counterexample: with an existing sitemap that is newer than every
content file, `should_regenerate_sitemap` answers `false` even though the URL
set that regeneration would produce differs from the URL set present in the
sitemap — the set-difference condition does not trigger this checker. -/
theorem staleness_setdiff_ignored_counterexample :
    urlSetDiffersB
      (wouldBeUrls "https://x.io".toList [⟨"about.html".toList, some 50, none⟩])
      ["https://x.io/stale.html".toList] = true
    ∧ Today.effectiveSitemapTime
        ⟨false, true, some 100, none, [⟨"about.html".toList, some 50, none⟩]⟩ = some 100
    ∧ Today.anyNewer [⟨"about.html".toList, some 50, none⟩] 100 = false
    ∧ Today.should_regenerate_sitemap
        ⟨false, true, some 100, none, [⟨"about.html".toList, some 50, none⟩]⟩ = false := by
  refine ⟨by decide, rfl, by decide, by decide⟩

/-! ## C6 -/

theorem genscript_dir_index_html (ra : Bool) (dir : List Char)
    (h1 : dir ≠ [])
    (h2 : ∀ c, dir.head? = some c → isDotOrSlash c = false)
    (h3 : '\\' ∉ dir) :
    GenScript.pathTransform ra (dir ++ "/index.html".toList) = dir ++ ['/'] := by
  obtain ⟨c0, rest, rfl⟩ : ∃ c0 rest, dir = c0 :: rest := by
    cases dir with
    | nil => exact absurd rfl h1
    | cons a l => exact ⟨a, l, rfl⟩
  have hc0 : isDotOrSlash c0 = false := h2 c0 rfl
  have hmap : ((c0 :: rest) ++ "/index.html".toList).map replBackslash
      = (c0 :: rest) ++ "/index.html".toList := by
    apply mapIdOn
    intro c hc
    rcases List.mem_append.1 hc with hcd | hcs
    · have hne : c ≠ '\\' := fun he => h3 (he ▸ hcd)
      simp [replBackslash, hne]
    · have hall : ∀ x ∈ ("/index.html".toList : List Char), replBackslash x = x := by decide
      exact hall c hcs
  have hlstrip : lstripDotSlash ((c0 :: rest) ++ "/index.html".toList)
      = (c0 :: rest) ++ "/index.html".toList := by
    show List.dropWhile isDotOrSlash (c0 :: (rest ++ "/index.html".toList)) = _
    rw [List.dropWhile_cons, if_neg (by simp [hc0])]
    rfl
  have hlen : ((c0 :: rest) ++ "/index.html".toList).length
      = (c0 :: rest).length + 11 := by
    rw [List.length_append]
    rfl
  have hends : endsWithL ((c0 :: rest) ++ "/index.html".toList)
      "/index.html".toList = true := by
    unfold endsWithL
    rw [hlen, show ("/index.html".toList : List Char).length = 11 from rfl,
      Nat.add_sub_cancel, List.drop_left]
    simp [Nat.le_add_left]
  have hnotreadme :
      ¬(((c0 :: rest) ++ "/index.html".toList) = "README.md".toList ∧ ra = true) := by
    rintro ⟨heq, -⟩
    have hl := congrArg List.length heq
    rw [hlen, show ("README.md".toList : List Char).length = 9 from rfl] at hl
    omega
  simp only [GenScript.pathTransform]
  simp only [hmap, hlstrip]
  rw [if_neg hnotreadme, if_pos hends, hlen, Nat.add_sub_cancel, List.take_left]

theorem genscript_dir_index_htm (ra : Bool) (dir : List Char)
    (h1 : dir ≠ [])
    (h2 : ∀ c, dir.head? = some c → isDotOrSlash c = false)
    (h3 : '\\' ∉ dir) :
    GenScript.pathTransform ra (dir ++ "/index.htm".toList) = dir ++ ['/'] := by
  obtain ⟨d0, dlast, hdir⟩ : ∃ L b, dir = L ++ [b] := by
    rcases List.eq_nil_or_concat dir with h | ⟨L, b, h⟩
    · exact absurd h h1
    · exact ⟨L, b, by rw [h, List.concat_eq_append]⟩
  obtain ⟨c0, rest, rfl⟩ : ∃ c0 rest, dir = c0 :: rest := by
    cases dir with
    | nil => exact absurd rfl h1
    | cons a l => exact ⟨a, l, rfl⟩
  have hc0 : isDotOrSlash c0 = false := h2 c0 rfl
  have hmap : ((c0 :: rest) ++ "/index.htm".toList).map replBackslash
      = (c0 :: rest) ++ "/index.htm".toList := by
    apply mapIdOn
    intro c hc
    rcases List.mem_append.1 hc with hcd | hcs
    · have hne : c ≠ '\\' := fun he => h3 (he ▸ hcd)
      simp [replBackslash, hne]
    · have hall : ∀ x ∈ ("/index.htm".toList : List Char), replBackslash x = x := by decide
      exact hall c hcs
  have hlstrip : lstripDotSlash ((c0 :: rest) ++ "/index.htm".toList)
      = (c0 :: rest) ++ "/index.htm".toList := by
    show List.dropWhile isDotOrSlash (c0 :: (rest ++ "/index.htm".toList)) = _
    rw [List.dropWhile_cons, if_neg (by simp [hc0])]
    rfl
  have hlen : ((c0 :: rest) ++ "/index.htm".toList).length
      = (c0 :: rest).length + 10 := by
    rw [List.length_append]
    rfl
  have hd0len : (c0 :: rest).length = d0.length + 1 := by
    rw [hdir, List.length_append]
    rfl
  have hnotends : endsWithL ((c0 :: rest) ++ "/index.htm".toList)
      "/index.html".toList = false := by
    unfold endsWithL
    rw [hlen, show ("/index.html".toList : List Char).length = 11 from rfl]
    have hsub : (c0 :: rest).length + 10 - 11 = d0.length := by omega
    have hdrop : ((c0 :: rest) ++ "/index.htm".toList).drop d0.length
        = dlast :: "/index.htm".toList := by
      rw [hdir, show (d0 ++ [dlast]) ++ "/index.htm".toList
          = d0 ++ (dlast :: "/index.htm".toList) from by simp]
      exact List.drop_left _ _
    rw [hsub, hdrop,
      show ((dlast :: "/index.htm".toList) == "/index.html".toList)
        = ((dlast == '/') && ("/index.htm".toList == "index.html".toList)) from rfl,
      show (("/index.htm".toList : List Char) == "index.html".toList) = false from by decide]
    simp
  have hends : endsWithL ((c0 :: rest) ++ "/index.htm".toList)
      "/index.htm".toList = true := by
    unfold endsWithL
    rw [hlen, show ("/index.htm".toList : List Char).length = 10 from rfl,
      Nat.add_sub_cancel, List.drop_left]
    simp [Nat.le_add_left]
  have hnotreadme :
      ¬(((c0 :: rest) ++ "/index.htm".toList) = "README.md".toList ∧ ra = true) := by
    rintro ⟨heq, -⟩
    have hl := congrArg List.length heq
    rw [hlen, show ("README.md".toList : List Char).length = 9 from rfl] at hl
    omega
  simp only [GenScript.pathTransform]
  simp only [hmap, hlstrip]
  rw [if_neg hnotreadme, if_neg (by rw [hnotends]; exact Bool.false_ne_true),
    if_pos hends, hlen, Nat.add_sub_cancel, List.take_left]

/-- C6 amended: in `generate_sitemap.py`, mapping `dir/index.html` or
`dir/index.htm` strips the filename and keeps exactly one trailing slash:
the URL is `base` + `/dir/` (for any directory path not starting with `.` or
`/` and free of backslashes).  In `universal_sitemap_generator.py`, however,
`url_path[:-11]` also removes the slash (yielding `base/dir`), and
`/index.htm` is not stripped at all (see the counterexample). -/
theorem dir_index_trailing_slash (base dir : List Char) (ra : Bool)
    (h1 : dir ≠ [])
    (h2 : ∀ c, dir.head? = some c → isDotOrSlash c = false)
    (h3 : '\\' ∉ dir) :
    GenScript.convert_path_to_url base ra (dir ++ "/index.html".toList)
      = base ++ ('/' :: (dir ++ ['/']))
    ∧ GenScript.convert_path_to_url base ra (dir ++ "/index.htm".toList)
      = base ++ ('/' :: (dir ++ ['/'])) := by
  have hens : ensureSlash (dir ++ ['/']) = '/' :: (dir ++ ['/']) := by
    cases dir with
    | nil => exact absurd rfl h1
    | cons c0 rest =>
      have hc0 : isDotOrSlash c0 = false := h2 c0 rfl
      have hc0ne : c0 ≠ '/' := by
        intro he
        rw [he] at hc0
        exact absurd hc0 (by decide)
      unfold ensureSlash
      rw [if_neg (by simp), if_neg ?hh]
      case hh =>
        rw [show (((c0 :: rest) ++ ['/']) : List Char).head? = some c0 from rfl]
        intro h
        exact hc0ne (Option.some.inj h)
  constructor
  · unfold GenScript.convert_path_to_url joinUrl
    rw [genscript_dir_index_html ra dir h1 h2 h3, hens]
  · unfold GenScript.convert_path_to_url joinUrl
    rw [genscript_dir_index_htm ra dir h1 h2 h3, hens]

/-- Witness for the amended C6 at `dir = blog`. -/
theorem dir_index_trailing_slash_witness :
    GenScript.convert_path_to_url "https://x.io".toList true
        ("blog".toList ++ "/index.html".toList)
      = "https://x.io".toList ++ ('/' :: ("blog".toList ++ ['/']))
    ∧ GenScript.convert_path_to_url "https://x.io".toList true
        ("blog".toList ++ "/index.htm".toList)
      = "https://x.io".toList ++ ('/' :: ("blog".toList ++ ['/'])) :=
  dir_index_trailing_slash _ _ _ (by decide)
    (fun c hc => (Option.some.inj hc) ▸ (by decide : isDotOrSlash 'b' = false))
    (by decide)

/-- C6 counterexample: the universal generator's `convert_path_to_url` maps
`blog/index.html` to `https://x.io/blog` — the trailing slash is lost — and
leaves `docs/index.htm` entirely unstripped, so the claim is false for that
cited mapper. -/
theorem dir_index_counterexample :
    Universal.convert_path_to_url "https://x.io".toList "blog/index.html".toList
      = "https://x.io/blog".toList
    ∧ Universal.convert_path_to_url "https://x.io".toList "blog/index.html".toList
      ≠ "https://x.io/blog/".toList
    ∧ Universal.convert_path_to_url "https://x.io".toList "docs/index.htm".toList
      = "https://x.io/docs/index.htm".toList := by
  refine ⟨by decide, by decide, by decide⟩

/-! ## C7 -/

/-- The relative form of an emitted URL: the part after `base` and the single
separating slash. -/
def relForm (base url : List Char) : List Char := url.drop (base.length + 1)

theorem universal_pathTransform_fixed (c0 : Char) (rest : List Char)
    (h1 : c0 :: rest ≠ "index.html".toList)
    (h2 : endsWithL (c0 :: rest) "/index.html".toList = false)
    (h3 : endsWithL (c0 :: rest) ".md".toList = false)
    (h4 : endsWithL (c0 :: rest) ".markdown".toList = false)
    (h6 : '\\' ∉ c0 :: rest) :
    Universal.pathTransform (c0 :: rest) = c0 :: rest := by
  have hmap : (c0 :: rest).map replBackslash = c0 :: rest :=
    mapIdOn _ (fun c hcm => by
      have hne : c ≠ '\\' := fun he => h6 (he ▸ hcm)
      simp [replBackslash, hne])
  simp only [Universal.pathTransform, hmap]
  rw [if_neg h1, if_neg (by rw [h2]; exact Bool.false_ne_true),
    if_neg (by rw [h3]; exact Bool.false_ne_true),
    if_neg (by rw [h4]; exact Bool.false_ne_true)]

/-- C7 amended: re-mapping the relative form of an emitted URL yields the
same URL whenever the rewritten path is not itself subject to a rewrite rule
— i.e. unless `pathTransform` of the original path equals `index.html`, or
ends in `/index.html`, `.md` or `.markdown`.  Idempotence fails exactly on
such paths; in particular `index.md` maps to `/index.html`, which re-maps to
`/` (see the counterexample). -/
theorem to_url_idempotent_off_rewrites (base fp : List Char)
    (h1 : Universal.pathTransform fp ≠ "index.html".toList)
    (h2 : endsWithL (Universal.pathTransform fp) "/index.html".toList = false)
    (h3 : endsWithL (Universal.pathTransform fp) ".md".toList = false)
    (h4 : endsWithL (Universal.pathTransform fp) ".markdown".toList = false)
    (h5 : (Universal.pathTransform fp).head? ≠ some '/')
    (h6 : '\\' ∉ Universal.pathTransform fp) :
    Universal.convert_path_to_url base
      (relForm base (Universal.convert_path_to_url base fp))
    = Universal.convert_path_to_url base fp := by
  rcases hqe : Universal.pathTransform fp with _ | ⟨c0, rest⟩
  · unfold Universal.convert_path_to_url joinUrl
    rw [hqe, show ensureSlash ([] : List Char) = ['/'] from rfl]
    have hrf : relForm base (base ++ ['/']) = [] := by
      unfold relForm
      refine List.drop_eq_nil_of_le ?_
      rw [List.length_append]
      exact Nat.le_refl _
    rw [hrf]
    rfl
  · rw [hqe] at h1 h2 h3 h4 h5 h6
    have hc0 : c0 ≠ '/' := fun he => h5 (by rw [he]; rfl)
    have hens : ensureSlash (c0 :: rest) = '/' :: c0 :: rest := by
      unfold ensureSlash
      rw [if_neg (by simp), if_neg h5]
    unfold Universal.convert_path_to_url joinUrl
    rw [hqe, hens]
    have hrf : relForm base (base ++ ('/' :: c0 :: rest)) = c0 :: rest := by
      unfold relForm
      rw [show base ++ ('/' :: c0 :: rest) = (base ++ ['/']) ++ (c0 :: rest) from by simp]
      refine List.drop_left' ?_
      rw [List.length_append]
      rfl
    rw [hrf, universal_pathTransform_fixed c0 rest h1 h2 h3 h4 h6, hens]

/-- Witness for the amended C7 at `about.md`, whose mapped form `about.html`
is not re-rewritten. -/
theorem to_url_idempotent_off_rewrites_witness :
    Universal.convert_path_to_url "https://x.io".toList
      (relForm "https://x.io".toList
        (Universal.convert_path_to_url "https://x.io".toList "about.md".toList))
    = Universal.convert_path_to_url "https://x.io".toList "about.md".toList :=
  to_url_idempotent_off_rewrites _ _ (by decide) (by decide) (by decide)
    (by decide) (by decide) (by decide)

/-- C7 counterexample: `index.md` maps to `https://x.io/index.html`, whose
relative form `index.html` re-maps to `https://x.io/` — the claim names
`index.md` as covered, but the mapper is not idempotent there. -/
theorem to_url_not_idempotent_counterexample :
    Universal.convert_path_to_url "https://x.io".toList "index.md".toList
      = "https://x.io/index.html".toList
    ∧ Universal.convert_path_to_url "https://x.io".toList
        (relForm "https://x.io".toList
          (Universal.convert_path_to_url "https://x.io".toList "index.md".toList))
      = "https://x.io/".toList
    ∧ ("https://x.io/".toList : List Char) ≠ "https://x.io/index.html".toList := by
  refine ⟨by decide, by decide, by decide⟩

/-! ## C3 -/

/-- Pairwise-distinct sort keys: no two entries of the list share the same
`(priority, loc)` pair. -/
def distinctKeys (l : List SitemapEntry) : Prop :=
  l.Pairwise (fun a b => (a.priority, a.loc) ≠ (b.priority, b.loc))

instance : DecidablePred distinctKeys := fun l => by
  unfold distinctKeys; infer_instance

theorem entryLT_of_le_ne {a b : SitemapEntry} (hle : Emitter.entryLE a b)
    (hne : (a.priority, a.loc) ≠ (b.priority, b.loc)) : Emitter.entryLT a b := by
  rcases hle with h | ⟨he, hl⟩
  · exact Or.inl h
  · refine Or.inr ⟨he, lt_of_le_of_ne hl ?_⟩
    intro hloc
    exact hne (by rw [he, String.toList_inj.1 hloc])

theorem sorted_strict_of_sorted_distinct {l : List SitemapEntry}
    (hs : l.Sorted Emitter.entryLE) (hd : distinctKeys l) :
    l.Sorted Emitter.entryLT :=
  (List.Pairwise.and hs hd).imp (fun h => entryLT_of_le_ne h.1 h.2)

/-- C3 amended: the emitter always sorts by (priority descending, loc
ascending), and for inputs whose `(priority, loc)` keys are pairwise distinct,
permuted input lists produce byte-identical output.  With duplicate keys the
stable sort preserves the input order of the tied entries, so two permutations
of the same multiset can emit different bytes (see the counterexample). -/
theorem emit_sorted_and_deterministic :
    (∀ l : List SitemapEntry, (Emitter.sortEntries l).Sorted Emitter.entryLE)
    ∧ (∀ l1 l2 : List SitemapEntry, l1.Perm l2 → distinctKeys l1 →
        Emitter.emit l1 = Emitter.emit l2) := by
  constructor
  · intro l
    exact List.sorted_insertionSort Emitter.entryLE l
  · intro l1 l2 hp hd
    have hs1 : (Emitter.sortEntries l1).Sorted Emitter.entryLE :=
      List.sorted_insertionSort Emitter.entryLE l1
    have hs2 : (Emitter.sortEntries l2).Sorted Emitter.entryLE :=
      List.sorted_insertionSort Emitter.entryLE l2
    have hperm : (Emitter.sortEntries l1).Perm (Emitter.sortEntries l2) :=
      ((List.perm_insertionSort Emitter.entryLE l1).trans hp).trans
        (List.perm_insertionSort Emitter.entryLE l2).symm
    have hsym : Symmetric (fun a b : SitemapEntry =>
        (a.priority, a.loc) ≠ (b.priority, b.loc)) :=
      fun _ _ h he => h he.symm
    have hd1 : distinctKeys (Emitter.sortEntries l1) :=
      ((List.perm_insertionSort Emitter.entryLE l1).pairwise_iff
        (fun h' => hsym h')).2 hd
    have hd2 : distinctKeys (Emitter.sortEntries l2) :=
      (hperm.pairwise_iff (fun h' => hsym h')).1 hd1
    have heq : Emitter.sortEntries l1 = Emitter.sortEntries l2 :=
      List.eq_of_perm_of_sorted hperm
        (sorted_strict_of_sorted_distinct hs1 hd1)
        (sorted_strict_of_sorted_distinct hs2 hd2)
    unfold Emitter.emit
    rw [heq]

/-- Witness for the amended C3 on two concrete permuted lists with distinct
keys. -/
theorem emit_sorted_and_deterministic_witness :
    Emitter.emit
      [⟨"https://x.io/a", "2024-01-01", "weekly", mkRat 1 2⟩,
       ⟨"https://x.io/", "2024-01-02", "daily", 1⟩]
    = Emitter.emit
      [⟨"https://x.io/", "2024-01-02", "daily", 1⟩,
       ⟨"https://x.io/a", "2024-01-01", "weekly", mkRat 1 2⟩] :=
  emit_sorted_and_deterministic.2 _ _ (by decide) (by decide)

/-- C3 counterexample: two entries with equal priority and equal `loc` but
different `lastmod` keep their input order under the stable sort, so the two
permutations of this two-element multiset emit different bytes — emission is
not deterministic over the input multiset. -/
theorem emit_not_permutation_invariant_counterexample :
    ([⟨"https://x.io/a", "2024-01-01", "weekly", mkRat 1 2⟩,
      ⟨"https://x.io/a", "2024-02-02", "weekly", mkRat 1 2⟩] :
        List SitemapEntry).Perm
      [⟨"https://x.io/a", "2024-02-02", "weekly", mkRat 1 2⟩,
       ⟨"https://x.io/a", "2024-01-01", "weekly", mkRat 1 2⟩]
    ∧ Emitter.emit
        [⟨"https://x.io/a", "2024-01-01", "weekly", mkRat 1 2⟩,
         ⟨"https://x.io/a", "2024-02-02", "weekly", mkRat 1 2⟩]
      ≠ Emitter.emit
        [⟨"https://x.io/a", "2024-02-02", "weekly", mkRat 1 2⟩,
         ⟨"https://x.io/a", "2024-01-01", "weekly", mkRat 1 2⟩] := by
  refine ⟨by decide, by decide⟩
